import Mathlib

/-!
Verification of the GreenLeaf demand-signal and replenishment pipeline.

The definitions below are shallow embeddings of the Python sources:
Slow0Movers.py, CollectSalesData.py and CollectInventoryData.py.
Numeric columns are modelled over the rationals; missing or un-parseable
numeric inputs are modelled as Option values (none stands for NaN after
pandas to_numeric with errors equal to coerce). External library calls
(sklearn model fitting, the inner STL smoother) are modelled as explicit
oracle parameters, while their output contracts (for example that the STL
residual is the observed series minus seasonal minus trend) are embedded
directly.
-/

namespace GreenLeaf

attribute [local semireducible] Rat.add Rat.mul Rat.sub Rat.inv Rat.ofScientific

/-! ### Slow0Movers.py -/

/-- A row of the combined stock table read by Slow0Movers.py:
product id, available quantity (current stock) and total sales quantity. -/
structure StockRow where
  product_id : String
  available_quantity : ℚ
  total_sales_quantity : ℚ
deriving DecidableEq, Repr

/-- Embedding of identify_slow_selling_items from Slow0Movers.py:
average daily sales is total sales quantity divided by the window length,
a row is slow selling when that average is below the threshold, and the
returned rows are the slow selling ones that also have positive available
quantity. -/
def identify_slow_selling_items (df : List StockRow) (days : ℚ := 30)
    (threshold : ℚ := 1) : List StockRow :=
  df.filter fun r =>
    decide (r.total_sales_quantity / days < threshold) &&
    decide (r.available_quantity > 0)

/-- Claim C2: for every input table, positive window length and threshold,
the threshold-on-average classifier flags a product as slow moving if and
only if total sales quantity divided by the window is below the threshold
and the available quantity is positive; in particular no product with zero
available quantity is ever emitted. -/
theorem c2_threshold_classifier (df : List StockRow) (days threshold : ℚ)
    (hdays : 0 < days) :
    (∀ r : StockRow,
      r ∈ identify_slow_selling_items df days threshold ↔
        r ∈ df ∧ r.total_sales_quantity / days < threshold ∧
          0 < r.available_quantity) ∧
    (∀ r ∈ identify_slow_selling_items df days threshold,
      r.available_quantity ≠ 0) := by
  constructor
  · intro r
    simp only [identify_slow_selling_items, List.mem_filter, Bool.and_eq_true,
      decide_eq_true_iff, gt_iff_lt, and_assoc]
  · intro r hr
    simp only [identify_slow_selling_items, List.mem_filter, Bool.and_eq_true,
      decide_eq_true_iff, gt_iff_lt] at hr
    exact ne_of_gt hr.2.2

/-- Witness for claim C2 at a concrete one-row table. -/
theorem c2_threshold_classifier_witness :
    (⟨"p1", 5, 3⟩ : StockRow) ∈
      identify_slow_selling_items [⟨"p1", 5, 3⟩] 30 1 :=
  ((c2_threshold_classifier [⟨"p1", 5, 3⟩] 30 1 (by norm_num)).1
    ⟨"p1", 5, 3⟩).mpr ⟨by simp, by norm_num, by norm_num⟩

/-! ### CollectSalesData.py: clean_and_validate_data -/

/-- A raw sales record fetched from the marketplace API, before cleaning.
The numeric columns sales_quantity and sales_price are Option valued:
none models a value that is absent or that pandas to_numeric with coerce
turns into NaN. Dates are modelled as integers (days). -/
structure RawSalesRecord where
  product_id : String
  order_id : String
  sale_date : ℤ
  sales_quantity : Option ℚ
  sales_price : Option ℚ
deriving DecidableEq, Repr

/-- A record after to_numeric and fillna with zero, before the integer
cast of the quantity column. -/
structure ParsedSalesRecord where
  product_id : String
  order_id : String
  sale_date : ℤ
  sales_quantity : ℚ
  sales_price : ℚ
deriving DecidableEq, Repr

/-- A record after the astype conversions: sales_quantity is an integer
column, sales_price a float column. -/
structure CleanSalesRecord where
  product_id : String
  order_id : String
  sale_date : ℤ
  sales_quantity : ℤ
  sales_price : ℚ
deriving DecidableEq, Repr

/-- The per-record effect of pd.to_numeric with coerce followed by
fillna with zero: an absent or un-parseable numeric value becomes zero. -/
def parseRecord (r : RawSalesRecord) : ParsedSalesRecord :=
  ⟨r.product_id, r.order_id, r.sale_date,
    r.sales_quantity.getD 0, r.sales_price.getD 0⟩

/-- The to_numeric plus fillna stage of clean_and_validate_data. -/
def parseStage (data : List RawSalesRecord) : List ParsedSalesRecord :=
  data.map parseRecord

/-- Embedding of pandas drop_duplicates: keep the first occurrence of
each row, in order. The seen accumulator holds rows already kept. -/
def dropDuplicates {α : Type} [DecidableEq α] (seen : List α) :
    List α → List α
  | [] => []
  | x :: xs =>
    if x ∈ seen then dropDuplicates seen xs
    else x :: dropDuplicates (x :: seen) xs

/-- Ceiling of a rational, expressed through Rat.floor so that it
evaluates inside the kernel. -/
def ratCeil (q : ℚ) : ℤ := -Rat.floor (-q)

/-- Truncation toward zero, the effect of numpy astype from float to int. -/
def truncInt (q : ℚ) : ℤ := if 0 ≤ q then Rat.floor q else ratCeil q

/-- The astype stage of clean_and_validate_data: the quantity column
becomes an integer column by truncation, the price column a float. -/
def typeStage (l : List ParsedSalesRecord) : List CleanSalesRecord :=
  l.map fun r =>
    ⟨r.product_id, r.order_id, r.sale_date,
      truncInt r.sales_quantity, r.sales_price⟩

/-- Linear interpolation of a sorted value list at the virtual index h,
between the order statistics at the floor and the ceiling of h. -/
def interp (s : List ℚ) (h : ℚ) : ℚ :=
  let lo := (Rat.floor h).toNat
  let hi := (ratCeil h).toNat
  s.getD lo 0 + (h - (lo : ℚ)) * (s.getD hi 0 - s.getD lo 0)

/-- Embedding of the pandas Series quantile method with the default
linear interpolation: sort the values ascending, take the virtual index
h = q times (n - 1) and interpolate linearly between the neighbouring
order statistics. -/
def quantile (q : ℚ) (xs : List ℚ) : ℚ :=
  interp (List.insertionSort (· ≤ ·) xs) (q * ((xs.length : ℚ) - 1))

/-- One column of the IQR outlier step in clean_and_validate_data: keep
the records whose value for the column f lies in the closed interval
from Q1 minus k times IQR to Q3 plus k times IQR, quartiles computed on
the current surviving record set. -/
def iqrFilterBy {α : Type} (f : α → ℚ) (k : ℚ) (l : List α) : List α :=
  let q1 := quantile (1/4) (l.map f)
  let q3 := quantile (3/4) (l.map f)
  let iqr := q3 - q1
  l.filter fun r =>
    decide (q1 - k * iqr ≤ f r) && decide (f r ≤ q3 + k * iqr)

/-- The outlier loop of clean_and_validate_data: the sales_quantity
column is filtered first, then sales_price on the survivors, both with
k equal to 10. -/
def outlierStage (l : List CleanSalesRecord) : List CleanSalesRecord :=
  iqrFilterBy (fun r => r.sales_price) 10
    (iqrFilterBy (fun r => (r.sales_quantity : ℚ)) 10 l)

/-- Embedding of clean_and_validate_data from CollectSalesData.py:
numeric parsing with zero fill, duplicate removal, type conversion
(integer truncation of the quantity), then the sequential IQR outlier
filter. The CollectInventoryData.py copy has the same numeric pipeline
with three extra pass-through string columns. -/
def clean_and_validate_data (data : List RawSalesRecord) :
    List CleanSalesRecord :=
  outlierStage (typeStage (dropDuplicates [] (parseStage data)))

/-! ### Helper lemmas about the cleaning stages -/

lemma interp_eval_zero (s : List ℚ) : interp s 0 = s.getD 0 0 := by
  have h1 : ((0 : ℚ).floor).toNat = 0 := by decide
  have h2 : (ratCeil 0).toNat = 0 := by decide
  simp [interp, h1, h2]

lemma interp_eval_quarter (s : List ℚ) :
    interp s (1/4) = s.getD 0 0 + 1/4 * (s.getD 1 0 - s.getD 0 0) := by
  have h1 : ((1/4 : ℚ).floor).toNat = 0 := by decide
  have h2 : (ratCeil (1/4)).toNat = 1 := by decide
  simp only [interp, h1, h2]
  norm_num

lemma interp_eval_threequarters (s : List ℚ) :
    interp s (3/4) = s.getD 0 0 + 3/4 * (s.getD 1 0 - s.getD 0 0) := by
  have h1 : ((3/4 : ℚ).floor).toNat = 0 := by decide
  have h2 : (ratCeil (3/4)).toNat = 1 := by decide
  simp [interp, h1, h2]

lemma interp_eval_half (s : List ℚ) :
    interp s (1/2) = s.getD 0 0 + 1/2 * (s.getD 1 0 - s.getD 0 0) := by
  have h1 : ((1/2 : ℚ).floor).toNat = 0 := by decide
  have h2 : (ratCeil (1/2)).toNat = 1 := by decide
  simp only [interp, h1, h2]
  norm_num

lemma interp_eval_threehalves (s : List ℚ) :
    interp s (3/2) = s.getD 1 0 + 1/2 * (s.getD 2 0 - s.getD 1 0) := by
  have h1 : ((3/2 : ℚ).floor).toNat = 1 := by decide
  have h2 : (ratCeil (3/2)).toNat = 2 := by decide
  have h3 : (3/2 : ℚ) - ((1 : ℕ) : ℚ) = 1/2 := by norm_num
  simp only [interp, h1, h2, h3]

lemma quantile_bounds_of_length_le_three (xs : List ℚ) (h3 : xs.length ≤ 3)
    (k : ℚ) (hk : 1 ≤ k) (x : ℚ) (hx : x ∈ xs) :
    quantile (1/4) xs - k * (quantile (3/4) xs - quantile (1/4) xs) ≤ x ∧
      x ≤ quantile (3/4) xs + k * (quantile (3/4) xs - quantile (1/4) xs) := by
  have hperm := List.perm_insertionSort (· ≤ ·) xs
  have hsort := List.sorted_insertionSort (· ≤ ·) xs
  have hmem : x ∈ List.insertionSort (· ≤ ·) xs := hperm.mem_iff.mpr hx
  have hlen := hperm.length_eq
  rcases e : List.insertionSort (· ≤ ·) xs with _ | ⟨a, _ | ⟨b, _ | ⟨c, _ | ⟨d, tl⟩⟩⟩⟩
  · rw [e] at hperm
    rw [hperm.symm.eq_nil] at hx
    simp at hx
  · rw [e] at hmem hlen
    have hxl : xs.length = 1 := by simpa using hlen.symm
    have hq1 : quantile (1/4) xs = a := by
      unfold quantile
      rw [e, hxl, show (1/4 : ℚ) * (((1 : ℕ) : ℚ) - 1) = 0 by norm_num,
        interp_eval_zero]
      simp [List.getD]
    have hq3 : quantile (3/4) xs = a := by
      unfold quantile
      rw [e, hxl, show (3/4 : ℚ) * (((1 : ℕ) : ℚ) - 1) = 0 by norm_num,
        interp_eval_zero]
      simp [List.getD]
    have hxa : x = a := by simpa using hmem
    rw [hq1, hq3, hxa]
    simp
  · rw [e] at hmem hlen hsort
    have hab : a ≤ b := by
      simp [List.sorted_cons] at hsort
      exact hsort
    have hxl : xs.length = 2 := by simpa using hlen.symm
    have hq1 : quantile (1/4) xs = a + 1/4 * (b - a) := by
      unfold quantile
      rw [e, hxl, show (1/4 : ℚ) * (((2 : ℕ) : ℚ) - 1) = 1/4 by norm_num,
        interp_eval_quarter]
      simp [List.getD]
    have hq3 : quantile (3/4) xs = a + 3/4 * (b - a) := by
      unfold quantile
      rw [e, hxl, show (3/4 : ℚ) * (((2 : ℕ) : ℚ) - 1) = 3/4 by norm_num,
        interp_eval_threequarters]
      simp [List.getD]
    have hkd : 0 ≤ (k - 1) * (b - a) := by
      apply mul_nonneg <;> linarith
    have hx2 : x = a ∨ x = b := by simpa using hmem
    rw [hq1, hq3]
    rcases hx2 with rfl | rfl
    · constructor <;> nlinarith
    · constructor <;> nlinarith
  · rw [e] at hmem hlen hsort
    simp [List.sorted_cons] at hsort
    obtain ⟨⟨hab, hac⟩, hbc⟩ := hsort
    have hxl : xs.length = 3 := by simpa using hlen.symm
    have hq1 : quantile (1/4) xs = a + 1/2 * (b - a) := by
      unfold quantile
      rw [e, hxl, show (1/4 : ℚ) * (((3 : ℕ) : ℚ) - 1) = 1/2 by norm_num,
        interp_eval_half]
      simp [List.getD]
    have hq3 : quantile (3/4) xs = b + 1/2 * (c - b) := by
      unfold quantile
      rw [e, hxl, show (3/4 : ℚ) * (((3 : ℕ) : ℚ) - 1) = 3/2 by norm_num,
        interp_eval_threehalves]
      simp [List.getD]
    have hkd : 0 ≤ (k - 1) * (c - a) := by
      apply mul_nonneg <;> linarith
    have hx3 : x = a ∨ x = b ∨ x = c := by simpa using hmem
    rw [hq1, hq3]
    rcases hx3 with rfl | rfl | rfl
    · constructor <;> nlinarith
    · constructor <;> nlinarith
    · constructor <;> nlinarith
  · rw [e] at hlen
    rw [← hlen] at h3
    simp at h3

lemma iqrFilterBy_of_length_le_three {α : Type} (f : α → ℚ) (k : ℚ)
    (hk : 1 ≤ k) (l : List α) (h : l.length ≤ 3) : iqrFilterBy f k l = l := by
  have h3 : (l.map f).length ≤ 3 := by simpa using h
  simp only [iqrFilterBy]
  rw [List.filter_eq_self]
  intro r hr
  have hb := quantile_bounds_of_length_le_three (l.map f) h3 k hk (f r)
    (List.mem_map.mpr ⟨r, hr, rfl⟩)
  simp only [Bool.and_eq_true, decide_eq_true_iff]
  exact hb

lemma iqrFilterBy_sublist {α : Type} (f : α → ℚ) (k : ℚ) (l : List α) :
    (iqrFilterBy f k l).Sublist l := by
  simp only [iqrFilterBy]
  exact List.filter_sublist l

lemma outlierStage_sublist (l : List CleanSalesRecord) :
    (outlierStage l).Sublist l :=
  (iqrFilterBy_sublist _ _ _).trans (iqrFilterBy_sublist _ _ _)

lemma outlierStage_of_length_le_three (l : List CleanSalesRecord)
    (h : l.length ≤ 3) : outlierStage l = l := by
  unfold outlierStage
  rw [iqrFilterBy_of_length_le_three _ 10 (by norm_num) l h,
    iqrFilterBy_of_length_le_three _ 10 (by norm_num) l h]

lemma dropDuplicates_subset {α : Type} [DecidableEq α] (seen : List α)
    (xs : List α) : ∀ x ∈ dropDuplicates seen xs, x ∈ xs := by
  induction xs generalizing seen with
  | nil => simp [dropDuplicates]
  | cons y ys ih =>
    intro x hx
    simp only [dropDuplicates] at hx
    split at hx
    · exact List.mem_cons_of_mem _ (ih seen x hx)
    · rcases List.mem_cons.mp hx with h | h
      · exact h ▸ List.mem_cons_self _ _
      · exact List.mem_cons_of_mem _ (ih _ x h)

lemma dropDuplicates_nodup {α : Type} [DecidableEq α] (xs : List α) :
    ∀ seen : List α, (dropDuplicates seen xs).Nodup ∧
      ∀ x ∈ dropDuplicates seen xs, x ∉ seen := by
  induction xs with
  | nil =>
    intro seen
    simp [dropDuplicates]
  | cons y ys ih =>
    intro seen
    simp only [dropDuplicates]
    split
    · exact ih seen
    · next hy =>
      obtain ⟨hnd, hni⟩ := ih (y :: seen)
      refine ⟨List.nodup_cons.mpr ⟨fun hmem => ?_, hnd⟩, ?_⟩
      · exact hni y hmem (List.mem_cons_self y seen)
      · intro x hx
        rcases List.mem_cons.mp hx with rfl | hx'
        · exact hy
        · intro hxseen
          exact hni x hx' (List.mem_cons_of_mem _ hxseen)

/-! ### Claims C3, C6, C7, C8 -/

/-- Claim C6: on every cleaned record set with fewer than 4 records the
outlier filter is the identity, both for the two-column filter run by
clean_and_validate_data and for any single numeric column. -/
theorem c6_outlier_filter_noop_below_four (l : List CleanSalesRecord)
    (h : l.length < 4) :
    outlierStage l = l ∧
      ∀ f : CleanSalesRecord → ℚ, iqrFilterBy f 10 l = l := by
  have h3 : l.length ≤ 3 := Nat.lt_succ_iff.mp h
  exact ⟨outlierStage_of_length_le_three l h3,
    fun f => iqrFilterBy_of_length_le_three f 10 (by norm_num) l h3⟩

/-- Witness for claim C6 at a concrete three-record set. -/
theorem c6_outlier_filter_noop_below_four_witness :
    outlierStage [⟨"a", "o1", 0, 1, 5⟩, ⟨"a", "o2", 0, 2, 6⟩,
        ⟨"a", "o3", 0, 3, 7⟩] =
      [⟨"a", "o1", 0, 1, 5⟩, ⟨"a", "o2", 0, 2, 6⟩, ⟨"a", "o3", 0, 3, 7⟩] :=
  (c6_outlier_filter_noop_below_four _ (by decide)).1

/-- Claim C7 (amended): the surviving records form a sublist of the input,
so the record count never increases; and a second pass removes zero
additional records whenever the first pass removed none. Unconditional
idempotence fails, see the counterexample. -/
theorem c7_amended_subset_and_conditional_idempotence
    (l : List CleanSalesRecord) :
    (outlierStage l).Sublist l ∧ (outlierStage l).length ≤ l.length ∧
      (outlierStage l = l → outlierStage (outlierStage l) = outlierStage l) := by
  refine ⟨outlierStage_sublist l, (outlierStage_sublist l).length_le,
    fun hfix => ?_⟩
  rw [hfix, hfix]

/-- Witness for claim C7 at a concrete record set fixed by the filter. -/
theorem c7_amended_witness :
    outlierStage (outlierStage [(⟨"a", "o1", 0, 1, 5⟩ : CleanSalesRecord)]) =
      outlierStage [(⟨"a", "o1", 0, 1, 5⟩ : CleanSalesRecord)] :=
  (c7_amended_subset_and_conditional_idempotence _).2.2 (by decide)

/-- Input showing that the outlier filter is not idempotent: quantity
values 0, 0, 0, 1, 1, 1, 12, 100 with a constant price column. -/
def c7_input : List CleanSalesRecord :=
  [⟨"p", "o1", 0, 0, 1⟩, ⟨"p", "o2", 0, 0, 1⟩, ⟨"p", "o3", 0, 0, 1⟩,
   ⟨"p", "o4", 0, 1, 1⟩, ⟨"p", "o5", 0, 1, 1⟩, ⟨"p", "o6", 0, 1, 1⟩,
   ⟨"p", "o7", 0, 12, 1⟩, ⟨"p", "o8", 0, 100, 1⟩]

/-- Counterexample to claim C7 as stated: the first pass removes the 100
record, which narrows the quartiles so that a second pass with the same
k = 10 also removes the 12 record. -/
theorem c7_counterexample :
    (outlierStage (outlierStage c7_input)).length <
      (outlierStage c7_input).length := by decide

/-- Claim C3: every record surviving clean_and_validate_data carries the
zero-filled parse of some input record, and at the normalization stage an
absent quantity or price is mapped to exactly zero; all output fields are
total values, so no NaN remains. -/
theorem c3_normalizer_zero_fill (data : List RawSalesRecord) :
    (∀ s ∈ data, parseRecord s ∈ parseStage data ∧
      (s.sales_quantity = none → (parseRecord s).sales_quantity = 0) ∧
      (s.sales_price = none → (parseRecord s).sales_price = 0)) ∧
    (∀ r ∈ clean_and_validate_data data, ∃ s ∈ data,
      r.sales_quantity = truncInt (s.sales_quantity.getD 0) ∧
      r.sales_price = s.sales_price.getD 0) := by
  constructor
  · intro s hs
    refine ⟨List.mem_map.mpr ⟨s, hs, rfl⟩, ?_, ?_⟩
    · intro h
      simp [parseRecord, h]
    · intro h
      simp [parseRecord, h]
  · intro r hr
    have hr1 : r ∈ typeStage (dropDuplicates [] (parseStage data)) :=
      (outlierStage_sublist _).subset hr
    obtain ⟨p, hp, rfl⟩ := List.mem_map.mp hr1
    have hp2 : p ∈ parseStage data := dropDuplicates_subset [] _ p hp
    obtain ⟨s, hs, rfl⟩ := List.mem_map.mp hp2
    exact ⟨s, hs, rfl, rfl⟩

/-- Input for the C3 witness: one record with an absent quantity. -/
def c3_input : List RawSalesRecord := [⟨"p", "o", 0, none, some 5⟩]

/-- Witness for claim C3: the record with an absent quantity survives with
quantity exactly zero. -/
theorem c3_normalizer_zero_fill_witness :
    ∃ s ∈ c3_input,
      (⟨"p", "o", 0, 0, 5⟩ : CleanSalesRecord).sales_quantity =
        truncInt (s.sales_quantity.getD 0) ∧
      (⟨"p", "o", 0, 0, 5⟩ : CleanSalesRecord).sales_price =
        s.sales_price.getD 0 :=
  (c3_normalizer_zero_fill c3_input).2 ⟨"p", "o", 0, 0, 5⟩ (by decide)

/-- Claim C8 (amended): clean_and_validate_data deduplicates the parsed
records before the integer cast of the quantity, and at that stage no two
records are field-wise identical; quantity becomes an integer by
truncation and price a float, but no sign guarantee holds and the final
truncation can re-create field-wise identical records. -/
theorem c8_amended_dedup_before_cast (data : List RawSalesRecord) :
    clean_and_validate_data data =
      outlierStage (typeStage (dropDuplicates [] (parseStage data))) ∧
    (dropDuplicates [] (parseStage data)).Nodup :=
  ⟨rfl, (dropDuplicates_nodup (parseStage data) []).1⟩

/-- Input refuting claim C8 as stated: two distinct parsed records whose
quantities both truncate to the negative integer -1. -/
def c8_input : List RawSalesRecord :=
  [⟨"p", "o", 0, some (-3/2), some 2⟩, ⟨"p", "o", 0, some (-17/10), some 2⟩]

/-- The record produced twice by clean_and_validate_data on c8_input. -/
def c8_output_record : CleanSalesRecord := ⟨"p", "o", 0, -1, 2⟩

/-- Counterexample to claim C8 as stated: the output contains a record
with negative quantity, and two field-wise identical records, because
deduplication runs before the integer truncation and no sign check
exists. -/
theorem c8_counterexample :
    clean_and_validate_data c8_input = [c8_output_record, c8_output_record] ∧
    c8_output_record.sales_quantity < 0 ∧
    ¬ (clean_and_validate_data c8_input).Nodup := by decide

/-! ### CollectSalesData.py: calculate_ema -/

/-- The recursive tail of the pandas ewm mean with adjust set to false:
each output is alpha times the incoming value plus one minus alpha times
the previous output. -/
def ema_step (a : ℚ) (prev : ℚ) : List ℚ → List ℚ
  | [] => []
  | x :: xs => (a * x + (1 - a) * prev) :: ema_step a (a * x + (1 - a) * prev) xs

/-- Embedding of the pandas ewm(span).mean() call with adjust false: the
first output equals the first input, and afterwards the ema_step
recursion applies. -/
def ewm_adjust_false (a : ℚ) : List ℚ → List ℚ
  | [] => []
  | x :: xs => x :: ema_step a x xs

/-- Embedding of calculate_ema from CollectSalesData.py: the data frame
gains one ema_sales_quantity column computed by the exponentially
weighted moving average of the sales_quantity column with weighting
factor 2 divided by span plus 1. Each output row is the original row
paired with its new column value. -/
def calculate_ema (df : List CleanSalesRecord) (span : ℕ) :
    List (CleanSalesRecord × ℚ) :=
  df.zip (ewm_adjust_false (2 / ((span : ℚ) + 1))
    (df.map fun r => (r.sales_quantity : ℚ)))

lemma ema_step_length (a : ℚ) : ∀ (xs : List ℚ) (prev : ℚ),
    (ema_step a prev xs).length = xs.length := by
  intro xs
  induction xs with
  | nil => intro prev; rfl
  | cons x xs ih =>
    intro prev
    simp [ema_step, ih]

lemma ewm_length (a : ℚ) (xs : List ℚ) :
    (ewm_adjust_false a xs).length = xs.length := by
  cases xs with
  | nil => rfl
  | cons x xs => simp [ewm_adjust_false, ema_step_length]

lemma ema_step_getD (a : ℚ) : ∀ (xs : List ℚ) (prev : ℚ) (i : ℕ),
    i + 1 < xs.length →
    (ema_step a prev xs).getD (i + 1) 0 =
      a * xs.getD (i + 1) 0 + (1 - a) * (ema_step a prev xs).getD i 0 := by
  intro xs
  induction xs with
  | nil =>
    intro prev i h
    simp at h
  | cons x xs ih =>
    intro prev i h
    match i with
    | 0 =>
      cases xs with
      | nil => simp at h
      | cons y ys => simp [ema_step, List.getD_cons_succ, List.getD_cons_zero]
    | i + 1 =>
      have h' : i + 1 < xs.length := by simpa using h
      simpa [ema_step, List.getD_cons_succ] using
        ih (a * x + (1 - a) * prev) i h'

lemma ewm_getD_succ (a : ℚ) (q : List ℚ) (i : ℕ) (h : i + 1 < q.length) :
    (ewm_adjust_false a q).getD (i + 1) 0 =
      a * q.getD (i + 1) 0 + (1 - a) * (ewm_adjust_false a q).getD i 0 := by
  cases q with
  | nil => simp at h
  | cons x xs =>
    match i with
    | 0 =>
      cases xs with
      | nil => simp at h
      | cons y ys =>
        simp [ewm_adjust_false, ema_step, List.getD_cons_succ,
          List.getD_cons_zero]
    | i + 1 =>
      have h' : i + 1 < xs.length := by simpa using h
      simpa [ewm_adjust_false, List.getD_cons_succ] using
        ema_step_getD a xs x i h'

/-- Claim C4: the smoothed column produced by calculate_ema is the
adjust-false exponentially weighted average of the quantity column with
alpha equal to 2 over span plus 1: the first smoothed value equals the
first quantity and each later value is alpha times the quantity plus one
minus alpha times the previous smoothed value. -/
theorem c4_ema_recursion (df : List CleanSalesRecord) (span : ℕ)
    (hspan : 0 < span) :
    ((calculate_ema df span).map Prod.snd =
      ewm_adjust_false (2 / ((span : ℚ) + 1))
        (df.map fun r => (r.sales_quantity : ℚ))) ∧
    (∀ (x : ℚ) (xs : List ℚ),
      (ewm_adjust_false (2 / ((span : ℚ) + 1)) (x :: xs)).getD 0 0 = x) ∧
    (∀ (q : List ℚ) (i : ℕ), i + 1 < q.length →
      (ewm_adjust_false (2 / ((span : ℚ) + 1)) q).getD (i + 1) 0 =
        2 / ((span : ℚ) + 1) * q.getD (i + 1) 0 +
          (1 - 2 / ((span : ℚ) + 1)) *
            (ewm_adjust_false (2 / ((span : ℚ) + 1)) q).getD i 0) := by
  refine ⟨?_, fun x xs => rfl, fun q i h => ewm_getD_succ _ q i h⟩
  unfold calculate_ema
  rw [List.map_snd_zip]
  exact le_of_eq (by rw [ewm_length, List.length_map])

/-- Concrete data frame for the C4 witness. -/
def c4_df : List CleanSalesRecord :=
  [⟨"p", "o1", 0, 3, 1⟩, ⟨"p", "o2", 0, 5, 1⟩]

/-- Witness for claim C4: the recursion holds at index 1 of the series
3, 5 with span 3. -/
theorem c4_ema_recursion_witness :
    (ewm_adjust_false (2 / (((3 : ℕ) : ℚ) + 1)) [(3 : ℚ), 5]).getD 1 0 =
      2 / (((3 : ℕ) : ℚ) + 1) * ([(3 : ℚ), 5]).getD 1 0 +
        (1 - 2 / (((3 : ℕ) : ℚ) + 1)) *
          (ewm_adjust_false (2 / (((3 : ℕ) : ℚ) + 1)) [(3 : ℚ), 5]).getD 0 0 :=
  (c4_ema_recursion c4_df 3 (by norm_num)).2.2 [3, 5] 0 (by norm_num)

/-! ### CollectInventoryData.py: safety stock and reorder point -/

/-- A row of the inventory data frame at the reorder stage, reduced to
an identifier, the quantity column and the smoothed demand column. -/
structure InvRow (α : Type) where
  product_id : String
  sales_quantity : α
  ema_sales_quantity : α
deriving DecidableEq

/-- The numpy mean of a list. -/
def np_mean {α : Type} [Field α] (xs : List α) : α :=
  xs.sum / (xs.length : α)

/-- Embedding of np.std with its default ddof of zero: the population
standard deviation, dividing the squared deviations by n. The square
root of the ambient numeric type is passed as an oracle. -/
def np_std {α : Type} [Field α] (sqrt : α → α) (xs : List α) : α :=
  sqrt ((xs.map fun x => (x - np_mean xs) ^ 2).sum / (xs.length : α))

/-- Embedding of calculate_safety_stock from CollectInventoryData.py:
z score times the np.std of the daily demand series times the square
root of the lead time. The z score argument stands for the library call
norm.ppf at the service level, and sqrt for np.sqrt. -/
def calculate_safety_stock {α : Type} [Field α] (sqrt : α → α) (z_score : α)
    (daily_demand : List α) (lead_time : α) : α :=
  z_score * np_std sqrt daily_demand * sqrt lead_time

/-- Modelled from the spec: the sample standard deviation named by the
spec, dividing the squared deviations by n minus 1 instead of n. -/
def specSampleStd {α : Type} [Field α] (sqrt : α → α) (xs : List α) : α :=
  sqrt ((xs.map fun x => (x - np_mean xs) ^ 2).sum / ((xs.length : α) - 1))

/-- Modelled from the spec: safety stock as the spec words state it,
with the sample standard deviation of the residual series. -/
def specSafetyStock {α : Type} [Field α] (sqrt : α → α) (z_score : α)
    (daily_demand : List α) (lead_time : α) : α :=
  z_score * specSampleStd sqrt daily_demand * sqrt lead_time

/-- Embedding of calculate_reorder_point from CollectInventoryData.py:
each row gains one reorder_point column equal to its smoothed demand
times the lead time plus the safety stock. -/
def calculate_reorder_point {α : Type} [Field α] (df : List (InvRow α))
    (lead_time safety_stock : α) : List (InvRow α × α) :=
  df.map fun r => (r, r.ema_sales_quantity * lead_time + safety_stock)

/-- Counterexample to claim C1 as stated: on the residual series 0, 2
with lead time 1 the code, which uses the population standard deviation
of np.std, does not return the spec formula built from the sample
standard deviation. The z score 1.645 stands for norm.ppf at 0.95. -/
theorem c1_counterexample :
    calculate_safety_stock Real.sqrt (1.645 : ℝ) [0, 2] 1 ≠
      specSafetyStock Real.sqrt (1.645 : ℝ) [0, 2] 1 := by
  have hm : np_mean [(0 : ℝ), 2] = 1 := by
    unfold np_mean
    norm_num
  have hcode : calculate_safety_stock Real.sqrt (1.645 : ℝ) [0, 2] 1 = 1.645 := by
    unfold calculate_safety_stock np_std
    rw [hm]
    norm_num [Real.sqrt_one]
  have hspec : specSafetyStock Real.sqrt (1.645 : ℝ) [0, 2] 1 =
      1.645 * Real.sqrt 2 := by
    unfold specSafetyStock specSampleStd
    rw [hm]
    norm_num [Real.sqrt_one]
  rw [hcode, hspec]
  have h2 : (1 : ℝ) < Real.sqrt 2 := by
    rw [show (1 : ℝ) = Real.sqrt 1 by rw [Real.sqrt_one]]
    exact Real.sqrt_lt_sqrt (by norm_num) (by norm_num)
  have : (1.645 : ℝ) * 1 < 1.645 * Real.sqrt 2 :=
    mul_lt_mul_of_pos_left h2 (by norm_num)
  intro heq
  rw [← heq] at this
  norm_num at this

/-- Claim C1 (amended): calculate_safety_stock returns z score times the
population standard deviation of np.std times the square root of the
lead time, calculate_reorder_point sets each reorder point to smoothed
demand times lead time plus safety stock, and on a residual series of
standard deviation 2 with lead time 9 and the z score of the 0.95
service level the safety stock is 9.87 within 0.01. -/
theorem c1_amended_population_std :
    (∀ (z lead_time : ℝ) (daily_demand : List ℝ),
      calculate_safety_stock Real.sqrt z daily_demand lead_time =
        z * np_std Real.sqrt daily_demand * Real.sqrt lead_time) ∧
    (∀ (df : List (InvRow ℝ)) (lt ss : ℝ),
      ∀ p ∈ calculate_reorder_point df lt ss,
        p.2 = p.1.ema_sales_quantity * lt + ss) ∧
    (∀ z : ℝ, |z - 1.645| ≤ 1/1000 →
      |calculate_safety_stock Real.sqrt z [0, 4] 9 - 9.87| ≤ 1/100) := by
  refine ⟨fun z lt dd => rfl, ?_, ?_⟩
  · intro df lt ss p hp
    unfold calculate_reorder_point at hp
    obtain ⟨r, hr, rfl⟩ := List.mem_map.mp hp
    rfl
  · intro z hz
    have hm : np_mean [(0 : ℝ), 4] = 2 := by
      unfold np_mean
      norm_num
    have hstd : np_std Real.sqrt [(0 : ℝ), 4] = 2 := by
      unfold np_std
      rw [hm]
      norm_num
      rw [show (4 : ℝ) = 2 ^ 2 by norm_num, Real.sqrt_sq (by norm_num)]
    have h9 : Real.sqrt (9 : ℝ) = 3 := by
      rw [show (9 : ℝ) = 3 ^ 2 by norm_num, Real.sqrt_sq (by norm_num)]
    unfold calculate_safety_stock
    rw [hstd, h9]
    rw [show z * 2 * 3 - 9.87 = 6 * (z - 1.645) by ring, abs_mul,
      abs_of_nonneg (by norm_num : (0 : ℝ) ≤ 6)]
    linarith [hz]

/-- Witness for claim C1 at the z score value 1.645 and a concrete
reorder row. -/
theorem c1_amended_population_std_witness :
    (((⟨"p", 1, 2⟩ : InvRow ℝ), (23 : ℝ)).2 =
      ((⟨"p", 1, 2⟩ : InvRow ℝ), (23 : ℝ)).1.ema_sales_quantity * 9 + 5) ∧
    |calculate_safety_stock Real.sqrt (1.645 : ℝ) [0, 4] 9 - 9.87| ≤ 1/100 := by
  constructor
  · refine c1_amended_population_std.2.1 [⟨"p", 1, 2⟩] 9 5
      (⟨"p", 1, 2⟩, 23) ?_
    unfold calculate_reorder_point
    simp
    norm_num
  · exact c1_amended_population_std.2.2 1.645 (by norm_num)

/-- Claim C10: calculate_ema and calculate_reorder_point only add their
new column; every pre-existing column value and the row order are
unchanged, which the embedding states as the projection to the original
rows being the identity. -/
theorem c10_frame_only_new_column :
    (∀ (df : List CleanSalesRecord) (span : ℕ),
      (calculate_ema df span).map Prod.fst = df) ∧
    (∀ (df : List (InvRow ℚ)) (lt ss : ℚ),
      (calculate_reorder_point df lt ss).map Prod.fst = df) := by
  constructor
  · intro df span
    unfold calculate_ema
    rw [List.map_fst_zip]
    exact le_of_eq (by rw [ewm_length, List.length_map])
  · intro df lt ss
    unfold calculate_reorder_point
    have hcomp : (Prod.fst ∘ fun r : InvRow ℚ =>
        (r, r.ema_sales_quantity * lt + ss)) = id := rfl
    rw [List.map_map, hcomp, List.map_id]

/-! ### CollectSalesData.py: apply_stl_decomposition -/

/-- The seasonal and trend series produced by the inner loess loops of
the statsmodels STL fit, treated as an oracle. -/
structure STLFit where
  seasonal : List ℚ
  trend : List ℚ

/-- The residual series as the statsmodels STL result constructs it:
observed minus seasonal minus trend, pointwise. -/
def stl_resid (observed seasonal trend : List ℚ) : List ℚ :=
  (observed.zip (seasonal.zip trend)).map fun p => p.1 - p.2.1 - p.2.2

/-- The three component columns that apply_stl_decomposition assigns. -/
structure DecomposedSeries where
  seasonal : List ℚ
  trend : List ℚ
  residual : List ℚ

/-- Embedding of apply_stl_decomposition from CollectSalesData.py: the
seasonal and trend columns come from the library fit and the residual
column is the observed quantity minus seasonal minus trend, which is how
the library result defines resid. -/
def apply_stl_decomposition (quantity : List ℚ) (fit : STLFit) :
    DecomposedSeries :=
  ⟨fit.seasonal, fit.trend, stl_resid quantity fit.seasonal fit.trend⟩

lemma stl_resid_getD : ∀ (q s t : List ℚ) (i : ℕ), i < q.length →
    i < s.length → i < t.length →
    (stl_resid q s t).getD i 0 = q.getD i 0 - s.getD i 0 - t.getD i 0 := by
  intro q
  induction q with
  | nil =>
    intro s t i hq hs ht
    simp at hq
  | cons x q ih =>
    intro s t i hq hs ht
    cases s with
    | nil => simp at hs
    | cons y s =>
      cases t with
      | nil => simp at ht
      | cons z t =>
        match i with
        | 0 => simp [stl_resid, List.getD_cons_zero]
        | i + 1 =>
          have := ih s t i (by simpa using hq) (by simpa using hs)
            (by simpa using ht)
          simpa [stl_resid, List.getD_cons_succ] using this

/-- Claim C5: for a series long enough for the decomposer, at every
point the trend plus seasonal plus residual reconstruction equals the
original quantity exactly, hence within any floating point tolerance. -/
theorem c5_additive_reconstruction (quantity : List ℚ) (fit : STLFit)
    (period : ℕ) (hp : 0 < period) (hlen : 2 * period ≤ quantity.length)
    (hs : fit.seasonal.length = quantity.length)
    (ht : fit.trend.length = quantity.length)
    (i : ℕ) (hi : i < quantity.length) :
    (apply_stl_decomposition quantity fit).trend.getD i 0 +
      (apply_stl_decomposition quantity fit).seasonal.getD i 0 +
      (apply_stl_decomposition quantity fit).residual.getD i 0 =
      quantity.getD i 0 := by
  have hres := stl_resid_getD quantity fit.seasonal fit.trend i hi
    (by omega) (by omega)
  simp only [apply_stl_decomposition] at *
  rw [hres]
  ring

/-- Witness for claim C5 on a constant series of length 2 with period 1. -/
theorem c5_additive_reconstruction_witness :
    (apply_stl_decomposition [5, 5] ⟨[0, 0], [5, 5]⟩).trend.getD 0 0 +
      (apply_stl_decomposition [5, 5] ⟨[0, 0], [5, 5]⟩).seasonal.getD 0 0 +
      (apply_stl_decomposition [5, 5] ⟨[0, 0], [5, 5]⟩).residual.getD 0 0 =
      ([(5 : ℚ), 5]).getD 0 0 :=
  c5_additive_reconstruction [5, 5] ⟨[0, 0], [5, 5]⟩ 1 (by norm_num)
    (by norm_num) rfl rfl 0 (by norm_num)

/-! ### CollectSalesData.py: the regression slow mover classifier -/

/-- A row of the data frame reaching the regression classifier of
CollectSalesData.py. -/
structure MlRow where
  product_id : String
  sales_quantity : ℚ
  ema_sales_quantity : ℚ
  seasonal : ℚ
  trend : ℚ
deriving DecidableEq, Repr

/-- Embedding of identify_slow_selling_items from CollectSalesData.py.
The sklearn RandomForestRegressor fit and predict pair is the oracle
fitPredict, which may raise; the source wraps the call in no exception
handler, so a raised error propagates out of the function. On success
the rows whose prediction is below the threshold are returned. -/
def identify_slow_selling_items_ml
    (fitPredict : List (ℚ × ℚ × ℚ) → List ℚ → Except String (List ℚ))
    (df : List MlRow) (threshold : ℚ := 1) :
    Except String (List (MlRow × ℚ)) :=
  match fitPredict (df.map fun r => (r.ema_sales_quantity, r.seasonal, r.trend))
      (df.map fun r => r.sales_quantity) with
  | Except.error e => Except.error e
  | Except.ok preds =>
      Except.ok ((df.zip preds).filter fun p => decide (p.2 < threshold))

/-- An oracle standing for a RandomForestRegressor whose fit raises, as
happens on a degenerate feature matrix. -/
def failing_fit : List (ℚ × ℚ × ℚ) → List ℚ → Except String (List ℚ) :=
  fun _ _ => Except.error "ValueError: model training failed"

/-- A concrete row reaching the classifier. -/
def c9_row : MlRow := ⟨"p", 0, 0, 0, 0⟩

/-- Claim C9 evaluated at the failing input: when model training fails
the classifier propagates the error instead of degrading to the
threshold-on-average strategy, so the run does not complete. -/
theorem c9_training_failure_crashes :
    identify_slow_selling_items_ml failing_fit [c9_row] 1 =
      Except.error "ValueError: model training failed" ∧
    (identify_slow_selling_items_ml failing_fit [c9_row] 1).isOk = false :=
  ⟨rfl, rfl⟩

end GreenLeaf
